import Mathlib

/-!
Shallow embedding of `ec2_terminator/app.py`: a scheduled cleanup Lambda that
lists all regions of an account, lists instances in states running / stopping /
stopped, filters out instances carrying the reserved ignore tag or launched
less than an hour ago, and stops or terminates the rest.

The external AWS control plane (boto3 client) is modelled as a record of pure
functions (`Ec2Provider`); every embedded function additionally returns the
list of provider calls it issued (`ProviderCall`), so that claims about which
batches reach the state-changing operations are statable.  Timestamps are
modelled as integer seconds on an absolute time line: Python subtracts two
timezone-aware datetimes, which yields the absolute elapsed duration
independently of the timezone object attached, so a single integer axis is
faithful.  `datetime.timedelta(hours=1)` becomes 3600 seconds.
-/

set_option autoImplicit false

namespace Ec2Terminator

/-- A key/value tag attached to an instance (one element of the `Tags` field). -/
structure Tag where
  key : String
  value : String
deriving DecidableEq, Repr

/-- One instance record as returned by describe-instances: its identifier, its
lifecycle state name, its optional tag list (the `Tags` field may be absent) and its optional
launch timestamp (the `LaunchTime` field may be absent), in absolute seconds. -/
structure Instance where
  instanceId : String
  state : String
  tags : Option (List Tag)
  launchTime : Option Int
deriving DecidableEq, Repr

/-- One reservation of a describe-instances page. -/
structure Reservation where
  instances : List Instance
deriving DecidableEq, Repr

/-- One page of a paginated describe-instances response. -/
structure Page where
  reservations : List Reservation
deriving DecidableEq, Repr

/-- An entry of the `StoppingInstances` / `TerminatingInstances` field of a
stop-instances / terminate-instances response. -/
structure StateChange where
  instanceId : String
deriving DecidableEq, Repr

/-- A control-plane call issued to the provider, recorded for tracing. -/
inductive ProviderCall where
  | describeRegions
  | describeInstances (region : String)
  | stopInstances (region : String) (ids : List String)
  | terminateInstances (region : String) (ids : List String)
deriving DecidableEq, Repr

/-- The provider environment: the account data behind boto3.  Stop and
terminate return the `StateChange` entries the provider echoes back, possibly
fewer than requested (partial acceptance). -/
structure Ec2Provider where
  describeRegions : List String
  describeInstancesPages : String → List Page
  stopInstances : String → List String → List StateChange
  terminateInstances : String → List String → List StateChange

/-- `IGNORE_TAG_KEY` from app.py. -/
def IGNORE_TAG_KEY : String := "ec2-terminator:ignore"

/-- `IGNORE_TAG_VALUE` from app.py. -/
def IGNORE_TAG_VALUE : String := "ignore"

/-- One hour, the age threshold, in seconds (`datetime.timedelta(hours=1)`). -/
def hourSeconds : Int := 3600

/-- The `Values` of the `instance-state-name` filter in `list_instances`. -/
def state_filter_values : List String := ["running", "stopping", "stopped"]

/-- The ignore-tag loop of `list_instances` (app.py lines 50-57): true iff the
instance has a tag list containing a tag whose key is `IGNORE_TAG_KEY` and
whose value is `IGNORE_TAG_VALUE`. -/
def hasIgnoreTag (ec2 : Instance) : Bool :=
  match ec2.tags with
  | none => false
  | some tags => tags.any (fun tag => tag.key == IGNORE_TAG_KEY && tag.value == IGNORE_TAG_VALUE)

/-- The full ignore decision of `list_instances` (app.py lines 50-65): the tag
check, then - only when the tag check did not fire and a launch time is
present - the age check `now - launch < timedelta(hours=1)`. -/
def instanceIgnored (now : Int) (ec2 : Instance) : Bool :=
  let ignore := hasIgnoreTag ec2
  if !ignore then
    match ec2.launchTime with
    | some launch => decide (now - launch < hourSeconds)
    | none => ignore
  else ignore

/-- The age rule in isolation: an instance with a launch timestamp is
age-excluded iff it is less than an hour old; one without is never. -/
def ageExcluded (now : Int) (ec2 : Instance) : Bool :=
  match ec2.launchTime with
  | some launch => decide (now - launch < hourSeconds)
  | none => false

/-- Provider-side semantics of the `instance-state-name` filter passed to the
describe-instances paginator: every page keeps its reservations and their
order, and each reservation keeps, in order, exactly the instances whose state
is among the filter values. -/
def applyStateFilter (values : List String) (pages : List Page) : List Page :=
  pages.map (fun pg =>
    ⟨pg.reservations.map (fun rsvp =>
      ⟨rsvp.instances.filter (fun ec2 => values.contains ec2.state)⟩)⟩)

/-- The default action literal of app.py line 130. -/
def ACTION_STOP : String := "stop"

/-- The action literal of app.py line 132. -/
def ACTION_TERMINATE : String := "terminate"

/-- Head of the success message in stop mode (app.py line 165). -/
def MSG_STOPPED_HEAD : String := "Instances stopped: "

/-- Head of the success message in terminate mode (app.py line 163). -/
def MSG_TERMINATED_HEAD : String := "Instances terminated: "

/-- `list_regions` (app.py lines 21-28): returns the region names reported by
describe-regions, paired with the single call it issues. -/
def list_regions (client : Ec2Provider) : List String × List ProviderCall :=
  (client.describeRegions, [ProviderCall.describeRegions])

/-- `list_instances` (app.py lines 31-74): paginate describe-instances with the
state filter, then the triple loop over pages / reservations / instances,
appending the id of every instance the ignore logic lets through. -/
def list_instances (client : Ec2Provider) (now : Int) (region : String) : List String :=
  let pages := applyStateFilter state_filter_values (client.describeInstancesPages region)
  pages.foldl (fun acc page =>
    page.reservations.foldl (fun acc2 rsvp =>
      rsvp.instances.foldl (fun acc3 ec2 =>
        if instanceIgnored now ec2 then acc3 else acc3 ++ [ec2.instanceId]) acc2) acc) []

/-- The Python string method `lower`, modelled character by character (structural
recursion over the character list, so that it evaluates in the kernel). -/
def lowerString (s : String) : String := ⟨s.data.map Char.toLower⟩

/-- `set_instance_state` (app.py lines 77-103): select the provider operation
by the lowercased mode string, raise `ValueError` on anything else before any
provider call, and return the instance ids echoed back in the
`StoppingInstances` / `TerminatingInstances` response field.  The result is the
`Except` value (raise = `error`) together with the provider calls issued. -/
def set_instance_state (client : Ec2Provider) (instances : List String)
    (state : String) (region : String) :
    Except String (List String) × List ProviderCall :=
  if lowerString state == "stop" then
    let resp := client.stopInstances region instances
    let processed := if !resp.isEmpty then resp.map (fun i => i.instanceId) else []
    (Except.ok processed, [ProviderCall.stopInstances region instances])
  else if lowerString state == "terminate" then
    let resp := client.terminateInstances region instances
    let processed := if !resp.isEmpty then resp.map (fun i => i.instanceId) else []
    (Except.ok processed, [ProviderCall.terminateInstances region instances])
  else
    (Except.error ("Unknown instance state: " ++ state), [])

/-- The `EC2_ACTION` selection at the top of `lambda_handler` (app.py lines
129-132): the environment value, defaulted to the empty string when the
variable is absent, is compared with the exact literal `TERMINATE`;
anything else leaves the default stop.  `none` models an absent variable. -/
def ec2ActionOf (envAction : Option String) : String :=
  let raw := match envAction with | some v => v | none => ""
  if raw == "TERMINATE" then ACTION_TERMINATE else ACTION_STOP

/-- Python `repr` of a plain (quote-free, backslash-free) string. -/
def pyStrRepr (s : String) : String := "\x27" ++ s ++ "\x27"

/-- Python `repr` of a list of plain strings, as produced by the f-strings
`f"Instances stopped: {processed}"` / `f"Instances terminated: {processed}"`. -/
def pyListRepr (xs : List String) : String :=
  "[" ++ String.intercalate (", ") (xs.map pyStrRepr) ++ "]"

/-- The per-region loop of `lambda_handler` (app.py lines 144-155), threading
the `found` flag and the `processed` accumulator; a raise inside
`set_instance_state` aborts the loop and propagates (`error`). -/
def runRegions (client : Ec2Provider) (now : Int) (action : String) :
    List String → Bool → List String →
    Except String (Bool × List String) × List ProviderCall
  | [], found, processed => (Except.ok (found, processed), [])
  | region :: rest, found, processed =>
    let ec2_instances := list_instances client now region
    if !ec2_instances.isEmpty then
      match set_instance_state client ec2_instances action region with
      | (Except.ok confirmed, tr) =>
        let next := runRegions client now action rest true (processed ++ confirmed)
        (next.fst, ProviderCall.describeInstances region :: (tr ++ next.snd))
      | (Except.error e, tr) =>
        (Except.error e, ProviderCall.describeInstances region :: tr)
    else
      let next := runRegions client now action rest found processed
      (next.fst, ProviderCall.describeInstances region :: next.snd)

/-- The externally observable result of one invocation: the `statusCode` field
and the `message` string (the body is `json.dumps` of an object holding
exactly that message). -/
structure LambdaResult where
  statusCode : Nat
  message : String
deriving DecidableEq, Repr

/-- Message of app.py line 137. -/
def MSG_NO_REGIONS : String := "No available regions"

/-- Message of app.py line 159. -/
def MSG_NONE_CONFIRMED : String := "Some instances failed to stop or terminate"

/-- Message of app.py line 161. -/
def MSG_NO_INSTANCES : String := "No running or stopped instances found"

/-- `lambda_handler` (app.py lines 106-182): pick the action from the
environment, list regions (raising when none), run the per-region loop, and
convert the outcome - or any raised error - into the status/message result.
The second component is the trace of provider calls issued. -/
def lambda_handler (client : Ec2Provider) (envAction : Option String) (now : Int) :
    LambdaResult × List ProviderCall :=
  let ec2_action := ec2ActionOf envAction
  let regions := (list_regions client).fst
  if regions.isEmpty then
    (⟨500, MSG_NO_REGIONS⟩, (list_regions client).snd)
  else
    match runRegions client now ec2_action regions false [] with
    | (Except.error e, tr) => (⟨500, e⟩, (list_regions client).snd ++ tr)
    | (Except.ok (found, processed), tr) =>
      if found && processed.isEmpty then
        (⟨500, MSG_NONE_CONFIRMED⟩, (list_regions client).snd ++ tr)
      else
        let message :=
          if !found then MSG_NO_INSTANCES
          else if ec2_action == "terminate" then
            MSG_TERMINATED_HEAD ++ pyListRepr processed
          else
            MSG_STOPPED_HEAD ++ pyListRepr processed
        (⟨200, message⟩, (list_regions client).snd ++ tr)

/-! ### Specification-side observables

These are defined independently of the handler loop, directly from the
provider data, and the theorems connect the handler to them. -/

/-- All instances of a list of reservations, in order. -/
def resInstances : List Reservation → List Instance
  | [] => []
  | rsvp :: rest => rsvp.instances ++ resInstances rest

/-- All instances of a list of pages, in cross-page, cross-reservation order
(the provider discovery order). -/
def allInstances : List Page → List Instance
  | [] => []
  | pg :: rest => resInstances pg.reservations ++ allInstances rest

/-- The ids the provider confirms for one batch in one region under a
handler-level action mode. -/
def regionConfirmed (client : Ec2Provider) (action region : String)
    (ids : List String) : List String :=
  if action == "terminate" then
    (client.terminateInstances region ids).map (fun i => i.instanceId)
  else
    (client.stopInstances region ids).map (fun i => i.instanceId)

/-- Whether any region of the list yields a non-empty batch. -/
def foundAny (client : Ec2Provider) (now : Int) (regions : List String) : Bool :=
  regions.any (fun region => !(list_instances client now region).isEmpty)

/-- The aggregate of provider-confirmed ids, region by region in order,
skipping regions whose batch is empty (those trigger no state change). -/
def aggregateConfirmed (client : Ec2Provider) (now : Int) (action : String) :
    List String → List String
  | [] => []
  | region :: rest =>
    let batch := list_instances client now region
    (if batch.isEmpty then [] else regionConfirmed client action region batch)
      ++ aggregateConfirmed client now action rest

/-- The inclusion predicate realised by `list_instances`: the provider-side
state filter together with the local ignore logic. -/
def includedInstance (now : Int) (ec2 : Instance) : Bool :=
  state_filter_values.contains ec2.state && !instanceIgnored now ec2

/-- The head of the success message selected by the handler action mode. -/
def actionMessageHead (action : String) : String :=
  if action == "terminate" then MSG_TERMINATED_HEAD else MSG_STOPPED_HEAD

/-! ### Concrete sample data (mirroring the unit-test fixtures) -/

/-- A plain running instance with no tags and no launch time. -/
def sampleInstance : Instance := ⟨"test-instance", "running", none, none⟩

/-- A running instance carrying the reserved ignore tag. -/
def taggedInstance : Instance :=
  ⟨"ignore-instance", "running", some [⟨IGNORE_TAG_KEY, IGNORE_TAG_VALUE⟩], none⟩

/-- A stopped instance with no tags and no launch time. -/
def otherInstance : Instance := ⟨"other-instance", "stopped", none, none⟩

/-- A freshly launched instance (launch time 0). -/
def youngInstance : Instance := ⟨"young-instance", "running", none, some 0⟩

/-- A provider response echoing back every requested id. -/
def echoStateChanges (ids : List String) : List StateChange :=
  ids.map (fun id => ⟨id⟩)

/-- One region, one plain instance, provider confirms everything. -/
def sampleClient : Ec2Provider :=
  ⟨["test-region"], fun _ => [⟨[⟨[sampleInstance]⟩]⟩],
   fun _ ids => echoStateChanges ids, fun _ ids => echoStateChanges ids⟩

/-- One region, one tag-ignored and one plain instance. -/
def mixedClient : Ec2Provider :=
  ⟨["test-region"], fun _ => [⟨[⟨[taggedInstance, sampleInstance]⟩]⟩],
   fun _ ids => echoStateChanges ids, fun _ ids => echoStateChanges ids⟩

/-- One region whose only instance carries the ignore tag. -/
def ignoredOnlyClient : Ec2Provider :=
  ⟨["test-region"], fun _ => [⟨[⟨[taggedInstance]⟩]⟩],
   fun _ ids => echoStateChanges ids, fun _ ids => echoStateChanges ids⟩

/-- One region, one instance, but the provider confirms no transition. -/
def refusingClient : Ec2Provider :=
  ⟨["test-region"], fun _ => [⟨[⟨[sampleInstance]⟩]⟩],
   fun _ _ => [], fun _ _ => []⟩

/-- A provider reporting no regions at all. -/
def emptyRegionsClient : Ec2Provider :=
  ⟨[], fun _ => [], fun _ _ => [], fun _ _ => []⟩

/-- One region, two instances found, but the provider confirms only one. -/
def halfConfirmedClient : Ec2Provider :=
  ⟨["test-region"], fun _ => [⟨[⟨[sampleInstance, otherInstance]⟩]⟩],
   fun _ _ => [⟨"test-instance"⟩], fun _ _ => [⟨"test-instance"⟩]⟩

/-! ### Normalisation lemmas for the instance lister -/

theorem instanceIgnored_eq (now : Int) (ec2 : Instance) :
    instanceIgnored now ec2 = (hasIgnoreTag ec2 || ageExcluded now ec2) := by
  unfold instanceIgnored ageExcluded
  by_cases h : hasIgnoreTag ec2 = true
  · simp [h]
  · cases hl : ec2.launchTime <;> simp [h, hl]

theorem foldl_instances_eq (now : Int) (l : List Instance) :
    ∀ acc : List String,
      l.foldl (fun acc3 ec2 =>
          if instanceIgnored now ec2 then acc3 else acc3 ++ [ec2.instanceId]) acc
        = acc ++ (l.filter (fun ec2 => !instanceIgnored now ec2)).map Instance.instanceId := by
  induction l with
  | nil => intro acc; simp
  | cons ec2 rest ih =>
    intro acc
    by_cases h : instanceIgnored now ec2 = true <;>
      simp [h, ih, List.filter_cons]

theorem foldl_res_eq (now : Int) (rs : List Reservation) :
    ∀ acc : List String,
      rs.foldl (fun acc2 rsvp =>
          rsvp.instances.foldl (fun acc3 ec2 =>
            if instanceIgnored now ec2 then acc3 else acc3 ++ [ec2.instanceId]) acc2) acc
        = acc ++ ((resInstances rs).filter
            (fun ec2 => !instanceIgnored now ec2)).map Instance.instanceId := by
  induction rs with
  | nil => intro acc; simp [resInstances]
  | cons rsvp rest ih =>
    intro acc
    simp only [List.foldl_cons]
    rw [foldl_instances_eq, ih]
    simp [resInstances, List.filter_append, List.append_assoc]

theorem foldl_pages_eq (now : Int) (pages : List Page) :
    ∀ acc : List String,
      pages.foldl (fun acc page =>
          page.reservations.foldl (fun acc2 rsvp =>
            rsvp.instances.foldl (fun acc3 ec2 =>
              if instanceIgnored now ec2 then acc3 else acc3 ++ [ec2.instanceId]) acc2) acc) acc
        = acc ++ ((allInstances pages).filter
            (fun ec2 => !instanceIgnored now ec2)).map Instance.instanceId := by
  induction pages with
  | nil => intro acc; simp [allInstances]
  | cons pg rest ih =>
    intro acc
    simp only [List.foldl_cons]
    rw [foldl_res_eq, ih]
    simp [allInstances, List.filter_append, List.append_assoc]

theorem resInstances_filterMap (values : List String) (rs : List Reservation) :
    resInstances (rs.map (fun rsvp =>
        ⟨rsvp.instances.filter (fun ec2 => values.contains ec2.state)⟩))
      = (resInstances rs).filter (fun ec2 => values.contains ec2.state) := by
  induction rs with
  | nil => simp [resInstances]
  | cons rsvp rest ih =>
    simp only [List.map_cons, resInstances, List.filter_append]
    rw [ih]

theorem allInstances_applyStateFilter (values : List String) (pages : List Page) :
    allInstances (applyStateFilter values pages)
      = (allInstances pages).filter (fun ec2 => values.contains ec2.state) := by
  induction pages with
  | nil => simp [allInstances, applyStateFilter]
  | cons pg rest ih =>
    simp only [applyStateFilter, List.map_cons, allInstances, List.filter_append] at *
    rw [resInstances_filterMap, ih]

theorem list_instances_eq (client : Ec2Provider) (now : Int) (region : String) :
    list_instances client now region
      = ((allInstances (client.describeInstancesPages region)).filter
          (includedInstance now)).map Instance.instanceId := by
  unfold list_instances
  rw [foldl_pages_eq, allInstances_applyStateFilter]
  simp only [List.nil_append, List.filter_filter]
  congr 1
  exact List.filter_congr (fun a _ => by simp [includedInstance, Bool.and_comm])

theorem mem_list_instances (client : Ec2Provider) (now : Int) (region : String)
    (id : String) :
    id ∈ list_instances client now region ↔
      ∃ ec2 ∈ allInstances (client.describeInstancesPages region),
        includedInstance now ec2 = true ∧ ec2.instanceId = id := by
  rw [list_instances_eq]
  simp [List.mem_filter, and_assoc]

/-! ### The state changer and the handler loop -/

theorem set_instance_state_stop_eq (client : Ec2Provider) (ids : List String)
    (region : String) (state : String) (h : lowerString state = "stop") :
    set_instance_state client ids state region
      = (Except.ok ((client.stopInstances region ids).map (fun i => i.instanceId)),
         [ProviderCall.stopInstances region ids]) := by
  unfold set_instance_state
  rw [h]
  cases client.stopInstances region ids <;> simp

theorem set_instance_state_terminate_eq (client : Ec2Provider) (ids : List String)
    (region : String) (state : String) (h : lowerString state = "terminate") :
    set_instance_state client ids state region
      = (Except.ok ((client.terminateInstances region ids).map (fun i => i.instanceId)),
         [ProviderCall.terminateInstances region ids]) := by
  unfold set_instance_state
  rw [h]
  cases client.terminateInstances region ids <;> simp

theorem set_instance_state_invalid_eq (client : Ec2Provider) (ids : List String)
    (region : String) (state : String)
    (h1 : lowerString state ≠ "stop") (h2 : lowerString state ≠ "terminate") :
    set_instance_state client ids state region
      = (Except.error ("Unknown instance state: " ++ state), []) := by
  unfold set_instance_state
  have hb1 : (lowerString state == "stop") = false := beq_eq_false_iff_ne.mpr h1
  have hb2 : (lowerString state == "terminate") = false := beq_eq_false_iff_ne.mpr h2
  rw [hb1, hb2]
  simp

/-- The valid branches expressed through the spec-side `regionConfirmed`. -/
theorem set_instance_state_valid_eq (client : Ec2Provider) (ids : List String)
    (region : String) (action : String)
    (h : action = "stop" ∨ action = "terminate") :
    (set_instance_state client ids action region).fst
      = Except.ok (regionConfirmed client action region ids) := by
  rcases h with h | h <;> subst h
  · have h0 : lowerString ("stop") = "stop" := rfl
    rw [set_instance_state_stop_eq client ids region _ h0]
    simp [regionConfirmed]
  · have h0 : lowerString ("terminate") = "terminate" := rfl
    rw [set_instance_state_terminate_eq client ids region _ h0]
    simp [regionConfirmed]

/-- Every call issued by `set_instance_state` is a stop or terminate for
exactly the batch and region it was given. -/
theorem set_instance_state_calls (client : Ec2Provider) (ids : List String)
    (state : String) (region : String) :
    ∀ c ∈ (set_instance_state client ids state region).snd,
      c = ProviderCall.stopInstances region ids ∨
        c = ProviderCall.terminateInstances region ids := by
  intro c hc
  unfold set_instance_state at hc
  by_cases h1 : (lowerString state == "stop") = true
  · rw [h1] at hc
    simp at hc
    left; exact hc
  · rw [Bool.not_eq_true] at h1
    rw [h1] at hc
    by_cases h2 : (lowerString state == "terminate") = true
    · rw [h2] at hc
      simp at hc
      right; exact hc
    · rw [Bool.not_eq_true] at h2
      rw [h2] at hc
      simp at hc

/-- The handler-level action mode is always one of the two valid modes. -/
theorem ec2ActionOf_cases (envAction : Option String) :
    ec2ActionOf envAction = "stop" ∨ ec2ActionOf envAction = "terminate" := by
  cases envAction with
  | none => left; rfl
  | some v =>
    by_cases h : (v == "TERMINATE") = true
    · right; simp [ec2ActionOf, h, ACTION_TERMINATE]
    · left; simp [ec2ActionOf, h, ACTION_STOP]

theorem aggregateConfirmed_ne_found (client : Ec2Provider) (now : Int)
    (action : String) :
    ∀ regions : List String,
      aggregateConfirmed client now action regions ≠ [] →
        foundAny client now regions = true := by
  intro regions
  induction regions with
  | nil => intro h; simp [aggregateConfirmed] at h
  | cons region rest ih =>
    intro h
    by_cases hb : (list_instances client now region).isEmpty
    · simp only [aggregateConfirmed, hb, if_pos, List.nil_append] at h
      have := ih h
      simp [foundAny] at this ⊢
      right; exact this
    · simp [foundAny]
      left
      simpa using hb

/-- The value computed by the per-region loop, for a valid action mode:
the found flag is the disjunction with `foundAny`, and the accumulator grows
by exactly the aggregate of confirmed ids. -/
theorem runRegions_fst (client : Ec2Provider) (now : Int) (action : String)
    (h : action = "stop" ∨ action = "terminate") :
    ∀ (regions : List String) (found : Bool) (processed : List String),
      (runRegions client now action regions found processed).fst
        = Except.ok (found || foundAny client now regions,
            processed ++ aggregateConfirmed client now action regions) := by
  intro regions
  induction regions with
  | nil =>
    intro found processed
    simp [runRegions, foundAny, aggregateConfirmed]
  | cons region rest ih =>
    intro found processed
    by_cases hb : (list_instances client now region).isEmpty
    · simp only [runRegions, hb, Bool.not_true, if_neg, Bool.false_eq_true,
        not_false_eq_true]
      rw [ih]
      simp [foundAny, aggregateConfirmed, hb]
    · have hb' : (!(list_instances client now region).isEmpty) = true := by
        simp [hb]
      simp only [runRegions, hb', if_pos]
      have hset := set_instance_state_valid_eq client
        (list_instances client now region) region action h
      rcases hpair : set_instance_state client (list_instances client now region)
          action region with ⟨res, tr⟩
      rw [hpair] at hset
      simp at hset
      rw [hset]
      simp only []
      rw [ih]
      simp [foundAny, aggregateConfirmed, hb, List.append_assoc]

/-- Every stop or terminate call issued by the loop targets a region of the
list with exactly the batch of that region. -/
theorem runRegions_calls (client : Ec2Provider) (now : Int) (action : String) :
    ∀ (regions : List String) (found : Bool) (processed : List String)
      (r : String) (ids : List String),
      (ProviderCall.stopInstances r ids
          ∈ (runRegions client now action regions found processed).snd ∨
       ProviderCall.terminateInstances r ids
          ∈ (runRegions client now action regions found processed).snd) →
      r ∈ regions ∧ ids = list_instances client now r := by
  intro regions
  induction regions with
  | nil =>
    intro found processed r ids h
    simp [runRegions] at h
  | cons region rest ih =>
    intro found processed r ids h
    by_cases hb : (list_instances client now region).isEmpty
    · simp only [runRegions, hb, Bool.not_true, if_neg, Bool.false_eq_true,
        not_false_eq_true, List.mem_cons] at h
      have h' : ProviderCall.stopInstances r ids
            ∈ (runRegions client now action rest found processed).snd ∨
          ProviderCall.terminateInstances r ids
            ∈ (runRegions client now action rest found processed).snd := by
        rcases h with h | h <;> rcases h with h | h
        · exact absurd h (by simp)
        · exact Or.inl h
        · exact absurd h (by simp)
        · exact Or.inr h
      have := ih found processed r ids h'
      exact ⟨List.mem_cons_of_mem _ this.1, this.2⟩
    · have hb' : (!(list_instances client now region).isEmpty) = true := by
        simp [hb]
      simp only [runRegions, hb', if_pos] at h
      rcases hpair : set_instance_state client (list_instances client now region)
          action region with ⟨res, tr⟩
      rw [hpair] at h
      have hcalls := set_instance_state_calls client
        (list_instances client now region) action region
      rw [hpair] at hcalls
      cases res with
      | error e =>
        simp only [List.mem_cons] at h
        have h' : ProviderCall.stopInstances r ids ∈ tr ∨
            ProviderCall.terminateInstances r ids ∈ tr := by
          rcases h with h | h <;> rcases h with h | h
          · exact absurd h (by simp)
          · exact Or.inl h
          · exact absurd h (by simp)
          · exact Or.inr h
        have hre : r = region ∧ ids = list_instances client now region := by
          rcases h' with h' | h'
          · rcases hcalls _ h' with hc | hc
            · injection hc with e1 e2; exact ⟨e1, e2⟩
            · injection hc
          · rcases hcalls _ h' with hc | hc
            · injection hc
            · injection hc with e1 e2; exact ⟨e1, e2⟩
        exact ⟨hre.1 ▸ List.mem_cons_self _ _, hre.1 ▸ hre.2⟩
      | ok confirmed =>
        simp only [List.mem_cons, List.mem_append] at h
        have h' : (ProviderCall.stopInstances r ids ∈ tr ∨
            ProviderCall.terminateInstances r ids ∈ tr) ∨
            (ProviderCall.stopInstances r ids
                ∈ (runRegions client now action rest true (processed ++ confirmed)).snd ∨
             ProviderCall.terminateInstances r ids
                ∈ (runRegions client now action rest true (processed ++ confirmed)).snd) := by
          rcases h with h | h
          · rcases h with h | h
            · exact absurd h (by simp)
            · rcases h with h | h
              · exact Or.inl (Or.inl h)
              · exact Or.inr (Or.inl h)
          · rcases h with h | h
            · exact absurd h (by simp)
            · rcases h with h | h
              · exact Or.inl (Or.inr h)
              · exact Or.inr (Or.inr h)
        rcases h' with h' | h'
        · have hre : r = region ∧ ids = list_instances client now region := by
            rcases h' with h' | h'
            · rcases hcalls _ h' with hc | hc
              · injection hc with e1 e2; exact ⟨e1, e2⟩
              · injection hc
            · rcases hcalls _ h' with hc | hc
              · injection hc
              · injection hc with e1 e2; exact ⟨e1, e2⟩
          exact ⟨hre.1 ▸ List.mem_cons_self _ _, hre.1 ▸ hre.2⟩
        · have := ih true (processed ++ confirmed) r ids h'
          exact ⟨List.mem_cons_of_mem _ this.1, this.2⟩

/-! ### Handler-level characterisations -/

/-- Closed form of the handler result when at least one region exists: the
outcome is determined by `foundAny` and `aggregateConfirmed`. -/
theorem lambda_handler_fst (client : Ec2Provider) (envAction : Option String)
    (now : Int) (hr : client.describeRegions ≠ []) :
    (lambda_handler client envAction now).fst
      = (if foundAny client now client.describeRegions
            && (aggregateConfirmed client now (ec2ActionOf envAction)
                  client.describeRegions).isEmpty
         then ⟨500, MSG_NONE_CONFIRMED⟩
         else if !foundAny client now client.describeRegions
         then ⟨200, MSG_NO_INSTANCES⟩
         else if ec2ActionOf envAction == "terminate"
         then ⟨200, "Instances terminated: "
                ++ pyListRepr (aggregateConfirmed client now (ec2ActionOf envAction)
                      client.describeRegions)⟩
         else ⟨200, "Instances stopped: "
                ++ pyListRepr (aggregateConfirmed client now (ec2ActionOf envAction)
                      client.describeRegions)⟩) := by
  have hfst := runRegions_fst client now (ec2ActionOf envAction)
    (ec2ActionOf_cases envAction) client.describeRegions false []
  have hre : client.describeRegions.isEmpty = false := by
    simp [List.isEmpty_iff, hr]
  rcases hrr : runRegions client now (ec2ActionOf envAction)
      client.describeRegions false [] with ⟨res, tr⟩
  rw [hrr] at hfst
  simp only at hfst
  subst hfst
  simp only [lambda_handler, list_regions, hre, Bool.false_eq_true, if_neg,
    not_false_eq_true]
  rw [hrr]
  simp only [Bool.false_or, List.nil_append]
  by_cases hc1 : (foundAny client now client.describeRegions &&
      (aggregateConfirmed client now (ec2ActionOf envAction)
        client.describeRegions).isEmpty) = true
  · simp [hc1]
  · by_cases hc2 : (!foundAny client now client.describeRegions) = true
    · simp [hc1, hc2]
    · by_cases hc3 : (ec2ActionOf envAction == "terminate") = true
      · simp [hc1, hc2, hc3, MSG_TERMINATED_HEAD]
      · simp [hc1, hc2, hc3, MSG_STOPPED_HEAD]

/-- Every stop or terminate call the handler issues targets a listed region
with exactly the batch of included instance ids of that region. -/
theorem lambda_handler_calls (client : Ec2Provider) (envAction : Option String)
    (now : Int) (r : String) (ids : List String)
    (h : ProviderCall.stopInstances r ids ∈ (lambda_handler client envAction now).snd ∨
         ProviderCall.terminateInstances r ids
           ∈ (lambda_handler client envAction now).snd) :
    r ∈ client.describeRegions ∧ ids = list_instances client now r := by
  by_cases hr : client.describeRegions.isEmpty
  · simp only [lambda_handler, list_regions, hr, if_pos] at h
    rcases h with h | h <;> simp at h
  · rcases hrr : runRegions client now (ec2ActionOf envAction)
        client.describeRegions false [] with ⟨res, tr⟩
    have hsnd : (lambda_handler client envAction now).snd
        = ProviderCall.describeRegions :: tr := by
      simp only [lambda_handler, list_regions, hr, Bool.false_eq_true, if_neg,
        not_false_eq_true]
      rw [hrr]
      cases res with
      | error e => simp
      | ok p =>
        rcases p with ⟨found, processed⟩
        by_cases h2 : (found && processed.isEmpty) = true <;> simp [h2]
    rw [hsnd] at h
    have h' : ProviderCall.stopInstances r ids ∈ tr ∨
        ProviderCall.terminateInstances r ids ∈ tr := by
      rcases h with h | h
      · rcases List.mem_cons.mp h with h | h
        · exact absurd h (by simp)
        · exact Or.inl h
      · rcases List.mem_cons.mp h with h | h
        · exact absurd h (by simp)
        · exact Or.inr h
    exact runRegions_calls client now (ec2ActionOf envAction)
      client.describeRegions false [] r ids (by rw [hrr]; simpa using h')

/-! ### Claim theorems -/

/-- C1: an instance carrying the reserved ignore tag (key
`ec2-terminator:ignore`, value `ignore`), or one excluded by the age rule,
never has its identifier in any batch the orchestrator passes to
`set_instance_state`, regardless of its lifecycle state, provided instance
identifiers identify instances uniquely across the listed regions. -/
theorem excluded_never_in_batch (client : Ec2Provider) (envAction : Option String)
    (now : Int) (inst : Instance) (r : String) (ids : List String)
    (hexcl : hasIgnoreTag inst = true ∨ ageExcluded now inst = true)
    (huniq : ∀ region ∈ client.describeRegions,
      ∀ inst2 ∈ allInstances (client.describeInstancesPages region),
        inst2.instanceId = inst.instanceId → inst2 = inst)
    (hcall : ProviderCall.stopInstances r ids
        ∈ (lambda_handler client envAction now).snd ∨
      ProviderCall.terminateInstances r ids
        ∈ (lambda_handler client envAction now).snd) :
    inst.instanceId ∉ ids := by
  intro hid
  obtain ⟨hrmem, hids⟩ := lambda_handler_calls client envAction now r ids hcall
  rw [hids, mem_list_instances] at hid
  obtain ⟨ec2, hmem, hincl, hideq⟩ := hid
  have heq : ec2 = inst := huniq r hrmem ec2 hmem hideq
  subst heq
  have hni : instanceIgnored now ec2 = false := by
    simp only [includedInstance, Bool.and_eq_true, Bool.not_eq_true'] at hincl
    exact hincl.2
  rw [instanceIgnored_eq] at hni
  rcases hexcl with hx | hx <;> simp [hx] at hni

theorem excluded_never_in_batch_witness :
    taggedInstance.instanceId ∉ ["test-instance"] :=
  excluded_never_in_batch mixedClient none 0 taggedInstance ("test-region")
    ["test-instance"] (Or.inl (by decide)) (by decide) (Or.inl (by decide))

/-- C2: the orchestrator selects terminate mode iff `EC2_ACTION` is exactly
the literal `TERMINATE`; absence or any other value (empty string, case
variants) selects stop mode. -/
theorem action_mode_exact_literal (envAction : Option String) :
    (ec2ActionOf envAction = "terminate" ↔ envAction = some ("TERMINATE")) ∧
    (envAction ≠ some ("TERMINATE") → ec2ActionOf envAction = "stop") := by
  constructor
  · constructor
    · intro h
      cases envAction with
      | none => exact absurd h (by decide)
      | some v =>
        by_cases hb : (v == "TERMINATE") = true
        · have hv : v = "TERMINATE" := by simpa using hb
          rw [hv]
        · exfalso
          have hs : ec2ActionOf (some v) = "stop" := by simp [ec2ActionOf, hb, ACTION_STOP]
          rw [hs] at h
          exact absurd h (by decide)
    · intro h
      rw [h]
      decide
  · intro h
    cases envAction with
    | none => rfl
    | some v =>
      have hb : (v == "TERMINATE") = false :=
        beq_eq_false_iff_ne.mpr (fun e => h (by rw [e]))
      simp [ec2ActionOf, hb, ACTION_STOP]

theorem action_mode_exact_literal_witness :
    ec2ActionOf (some ("TeRmInAtE")) = "stop" :=
  (action_mode_exact_literal (some ("TeRmInAtE"))).2 (by decide)

/-- C3: with at least one region and no raised error, an invocation finding no
instances anywhere returns 200 with the no-instances message, and one with at
least one confirmed identifier returns 200 with a message naming the action
and listing the confirmed identifiers in region-by-region aggregate order. -/
theorem handler_success_messages (client : Ec2Provider) (envAction : Option String)
    (now : Int) (hr : client.describeRegions ≠ []) :
    (foundAny client now client.describeRegions = false →
      (lambda_handler client envAction now).fst
        = ⟨200, "No running or stopped instances found"⟩) ∧
    (aggregateConfirmed client now (ec2ActionOf envAction) client.describeRegions ≠ [] →
      ec2ActionOf envAction = "stop" →
      (lambda_handler client envAction now).fst
        = ⟨200, "Instances stopped: "
            ++ pyListRepr (aggregateConfirmed client now (ec2ActionOf envAction)
                  client.describeRegions)⟩) ∧
    (aggregateConfirmed client now (ec2ActionOf envAction) client.describeRegions ≠ [] →
      ec2ActionOf envAction = "terminate" →
      (lambda_handler client envAction now).fst
        = ⟨200, "Instances terminated: "
            ++ pyListRepr (aggregateConfirmed client now (ec2ActionOf envAction)
                  client.describeRegions)⟩) := by
  rw [lambda_handler_fst client envAction now hr]
  refine ⟨?_, ?_, ?_⟩
  · intro hf
    simp [hf, MSG_NO_INSTANCES]
  · intro ha hm
    have hf := aggregateConfirmed_ne_found client now (ec2ActionOf envAction)
      client.describeRegions ha
    have hae : (aggregateConfirmed client now (ec2ActionOf envAction)
        client.describeRegions).isEmpty = false := by
      simp [List.isEmpty_iff, ha]
    have hbeq : (ec2ActionOf envAction == "terminate") = false := by
      rw [hm]; decide
    simp [hf, hae, hbeq]
  · intro ha hm
    have hf := aggregateConfirmed_ne_found client now (ec2ActionOf envAction)
      client.describeRegions ha
    have hae : (aggregateConfirmed client now (ec2ActionOf envAction)
        client.describeRegions).isEmpty = false := by
      simp [List.isEmpty_iff, ha]
    have hbeq : (ec2ActionOf envAction == "terminate") = true := by
      rw [hm]; decide
    simp [hf, hae, hbeq]

theorem handler_success_messages_witness :
    (lambda_handler sampleClient none 7200).fst
      = ⟨200, "Instances stopped: "
          ++ pyListRepr (aggregateConfirmed sampleClient 7200 (ec2ActionOf none)
                sampleClient.describeRegions)⟩ :=
  (handler_success_messages sampleClient none 7200 (by decide)).2.1
    (by decide) (by decide)

/-- C4: when the region lister returns no regions, the handler returns 500
with the no-available-regions message and issues no instance-listing or
state-changing provider call (the trace holds only the describe-regions
call). -/
theorem handler_no_regions (client : Ec2Provider) (envAction : Option String)
    (now : Int) (h : client.describeRegions = []) :
    lambda_handler client envAction now
      = (⟨500, "No available regions"⟩, [ProviderCall.describeRegions]) := by
  simp [lambda_handler, list_regions, h, MSG_NO_REGIONS]

theorem handler_no_regions_witness :
    lambda_handler emptyRegionsClient none 0
      = (⟨500, "No available regions"⟩, [ProviderCall.describeRegions]) :=
  handler_no_regions emptyRegionsClient none 0 (by decide)

/-- C5: when at least one region yields a non-empty batch but the aggregate of
provider-confirmed identifiers over all regions is empty, the handler returns
500 with the partial-failure message. -/
theorem handler_found_none_confirmed (client : Ec2Provider)
    (envAction : Option String) (now : Int)
    (hr : client.describeRegions ≠ [])
    (hf : foundAny client now client.describeRegions = true)
    (ha : aggregateConfirmed client now (ec2ActionOf envAction)
        client.describeRegions = []) :
    (lambda_handler client envAction now).fst
      = ⟨500, "Some instances failed to stop or terminate"⟩ := by
  rw [lambda_handler_fst client envAction now hr]
  simp [hf, ha, MSG_NONE_CONFIRMED]

theorem handler_found_none_confirmed_witness :
    (lambda_handler refusingClient (some ("TERMINATE")) 7200).fst
      = ⟨500, "Some instances failed to stop or terminate"⟩ :=
  handler_found_none_confirmed refusingClient (some ("TERMINATE")) 7200
    (by decide) (by decide) (by decide)

/-- C6: for an instance not excluded by the tag rule, the ignore
decision with a recorded launch timestamp holds iff `now - launch` is strictly
below one hour, and an instance with no launch timestamp is never
age-excluded. -/
theorem age_rule_characterisation (now : Int) (ec2 : Instance)
    (hTag : hasIgnoreTag ec2 = false) :
    (∀ t, ec2.launchTime = some t →
        (instanceIgnored now ec2 = true ↔ now - t < hourSeconds)) ∧
    (ec2.launchTime = none → instanceIgnored now ec2 = false) := by
  constructor
  · intro t ht
    simp [instanceIgnored, hTag, ht]
  · intro ht
    simp [instanceIgnored, hTag, ht]

theorem age_rule_characterisation_witness :
    instanceIgnored 100 youngInstance = true :=
  ((age_rule_characterisation 100 youngInstance (by decide)).1 0
    (by decide)).mpr (by decide)

/-- C7: a mode whose lowercase form is neither stop nor terminate makes
`set_instance_state` fail with an invalid-argument error and an empty call
trace (no provider call, result independent of the provider); lowercase-stop
and lowercase-terminate variants select the corresponding provider
operation. -/
theorem state_changer_modes (client : Ec2Provider) (ids : List String)
    (state : String) (region : String) :
    (lowerString state ≠ "stop" → lowerString state ≠ "terminate" →
      set_instance_state client ids state region
        = (Except.error ("Unknown instance state: " ++ state), [])) ∧
    (lowerString state = "stop" →
      set_instance_state client ids state region
        = (Except.ok ((client.stopInstances region ids).map (fun i => i.instanceId)),
           [ProviderCall.stopInstances region ids])) ∧
    (lowerString state = "terminate" →
      set_instance_state client ids state region
        = (Except.ok ((client.terminateInstances region ids).map (fun i => i.instanceId)),
           [ProviderCall.terminateInstances region ids])) :=
  ⟨fun h1 h2 => set_instance_state_invalid_eq client ids region state h1 h2,
   fun h => set_instance_state_stop_eq client ids region state h,
   fun h => set_instance_state_terminate_eq client ids region state h⟩

theorem state_changer_modes_witness :
    set_instance_state sampleClient ["i-1"] "reboot" "test-region"
      = (Except.error ("Unknown instance state: " ++ "reboot"), []) :=
  (state_changer_modes sampleClient ["i-1"] "reboot" "test-region").1
    (by decide) (by decide)

/-- C8: the lister returns exactly the identifiers of the instances whose
lifecycle state is among running / stopping / stopped and that the ignore
logic lets through, in discovery order over all pages; when every state-
matching instance is excluded (or none matches) it returns the empty list. -/
theorem instance_lister_characterisation (client : Ec2Provider) (now : Int)
    (region : String) :
    list_instances client now region
      = ((allInstances (client.describeInstancesPages region)).filter
          (includedInstance now)).map Instance.instanceId ∧
    ((∀ ec2 ∈ allInstances (client.describeInstancesPages region),
        state_filter_values.contains ec2.state = true →
          instanceIgnored now ec2 = true) →
      list_instances client now region = []) := by
  refine ⟨list_instances_eq client now region, ?_⟩
  intro h
  rw [list_instances_eq]
  have hnil : List.filter (includedInstance now)
      (allInstances (client.describeInstancesPages region)) = [] := by
    rw [List.filter_eq_nil_iff]
    intro a ha
    have hfalse : (state_filter_values.contains a.state && !instanceIgnored now a)
        = false := by
      by_cases hs : state_filter_values.contains a.state = true
      · rw [hs, h a ha hs]
        rfl
      · rw [Bool.not_eq_true] at hs
        rw [hs]
        rfl
    simpa [includedInstance] using hfalse
  rw [hnil]
  rfl

theorem instance_lister_characterisation_witness :
    list_instances ignoredOnlyClient 0 ("test-region") = [] :=
  (instance_lister_characterisation ignoredOnlyClient 0 ("test-region")).2
    (by decide)

/-- C9: the mode the handler passes to `set_instance_state` is always exactly
stop or terminate, so the unknown-instance-state branch is unreachable from
the entry point: on the handler mode the state changer always returns a
confirmed list, never the invalid-argument error. -/
theorem handler_mode_always_valid (client : Ec2Provider)
    (envAction : Option String) (ids : List String) (region : String) :
    (ec2ActionOf envAction = "stop" ∨ ec2ActionOf envAction = "terminate") ∧
    ∃ confirmed, (set_instance_state client ids (ec2ActionOf envAction) region).fst
        = Except.ok confirmed :=
  ⟨ec2ActionOf_cases envAction,
   ⟨regionConfirmed client (ec2ActionOf envAction) region ids,
    set_instance_state_valid_eq client ids region (ec2ActionOf envAction)
      (ec2ActionOf_cases envAction)⟩⟩

/-- C10: whenever at least one identifier is confirmed, the handler returns
200 and a message listing exactly the aggregate of confirmed identifiers -
even when some found instance was not confirmed; the unconfirmed ones are
silently omitted from the output. -/
theorem unconfirmed_ids_omitted (client : Ec2Provider) (envAction : Option String)
    (now : Int)
    (hsomeleft : ∃ r ∈ client.describeRegions, ∃ id ∈ list_instances client now r,
        id ∉ aggregateConfirmed client now (ec2ActionOf envAction)
              client.describeRegions)
    (ha : aggregateConfirmed client now (ec2ActionOf envAction)
        client.describeRegions ≠ []) :
    (lambda_handler client envAction now).fst.statusCode = 200 ∧
    (lambda_handler client envAction now).fst.message
      = actionMessageHead (ec2ActionOf envAction)
          ++ pyListRepr (aggregateConfirmed client now (ec2ActionOf envAction)
                client.describeRegions) := by
  obtain ⟨r, hrmem, -⟩ := hsomeleft
  have hr : client.describeRegions ≠ [] := fun he => by
    rw [he] at hrmem
    exact absurd hrmem (List.not_mem_nil r)
  have hf := aggregateConfirmed_ne_found client now (ec2ActionOf envAction)
    client.describeRegions ha
  have hae : (aggregateConfirmed client now (ec2ActionOf envAction)
      client.describeRegions).isEmpty = false := by
    simp [List.isEmpty_iff, ha]
  rw [lambda_handler_fst client envAction now hr]
  by_cases hm : (ec2ActionOf envAction == "terminate") = true
  · simp [hf, hae, hm, actionMessageHead, MSG_TERMINATED_HEAD]
  · rw [Bool.not_eq_true] at hm
    simp [hf, hae, hm, actionMessageHead, MSG_STOPPED_HEAD]

theorem unconfirmed_ids_omitted_witness :
    (lambda_handler halfConfirmedClient none 0).fst.statusCode = 200 ∧
    (lambda_handler halfConfirmedClient none 0).fst.message
      = actionMessageHead (ec2ActionOf none)
          ++ pyListRepr (aggregateConfirmed halfConfirmedClient 0 (ec2ActionOf none)
                halfConfirmedClient.describeRegions) :=
  unconfirmed_ids_omitted halfConfirmedClient none 0 (by decide) (by decide)

end Ec2Terminator
